import Mathlib

set_option maxHeartbeats 1000000

/-!
Verification of the email-agent repository.

The Python sources are shallowly embedded: Python strings become lists of
characters, external capabilities (the OpenAI-compatible completion transport,
the IMAP connection, the stdlib byte decoders) become explicit function
parameters, and a raised Python exception at such a boundary is modelled as an
`Except.error` / `Option.none` result of the corresponding oracle.
-/

/-- Python strings are modelled as lists of characters. -/
abbrev Str := List Char

/-- Embed a Lean string literal into the model type. -/
def lit (s : String) : Str := s.toList

/-- The apostrophe character, used to build source prompt strings that contain it. -/
def apos : Char := Char.ofNat 39

/-- Python default whitespace set used by str.strip(): space, tab, newline,
carriage return, vertical tab, form feed. -/
def isWs (c : Char) : Bool :=
  c == ' ' || c == '\t' || c == '\n' || c == '\r' || c == Char.ofNat 11 || c == Char.ofNat 12

/-- Python str.lower() restricted to basic latin letters, as in the repository data. -/
def pyLower (s : Str) : Str := s.map Char.toLower

/-- Python str.upper() restricted to basic latin letters, as in the repository data. -/
def pyUpper (s : Str) : Str := s.map Char.toUpper

/-- Python str.strip(): remove leading and trailing whitespace. -/
def pyStrip (s : Str) : Str := ((s.dropWhile isWs).reverse.dropWhile isWs).reverse

/-- Python substring membership `needle in hay`. -/
def pyIn (needle hay : Str) : Bool := decide (needle <:+: hay)

/-- Python response.split with a newline separator, first element: the
characters up to the first newline. -/
def firstLine (s : Str) : Str := s.takeWhile (fun c => !(c == '\n'))

/-- Python `x or default` for an optional string: None and the empty string are falsy. -/
def orDefault (x : Option Str) (d : Str) : Str :=
  match x with
  | none => d
  | some s => if s.isEmpty then d else s

/-! ### llm_client.py -/

/-- A chat message as built by LLMClient.chat: a role and a content string. -/
structure ChatMsg where
  role : Str
  content : Str

/-- The messages list LLMClient.chat builds: the system message is appended only
when system_prompt is truthy (present and non-empty), then the user message. -/
def chatMessages (prompt : Str) (system_prompt : Option Str) : List ChatMsg :=
  (match system_prompt with
   | none => []
   | some sp => if sp.isEmpty then [] else [⟨lit "system", sp⟩]) ++ [⟨lit "user", prompt⟩]

/-- The fixed prefix of the error string LLMClient.chat returns when the
completion call raises. -/
def errPrefix : Str := lit "Error communicating with LLM: "

/-- LLMClient.chat. The transport parameter models
self.client.chat.completions.create followed by extracting the message content:
`Except.ok c` is a normal completion with content c, and `Except.error e` is a
raised exception whose textual rendering is e. The except-branch of the source
returns the formatted error string instead of re-raising. -/
def chat (transport : List ChatMsg → Except Str Str) (prompt : Str)
    (system_prompt : Option Str) : Str :=
  match transport (chatMessages prompt system_prompt) with
  | Except.ok content => content
  | Except.error e => errPrefix ++ e

/-- The default category list of LLMClient.categorize. -/
def defaultCategories : List Str :=
  [lit "Important", lit "Work", lit "Personal", lit "Newsletter", lit "Spam", lit "Other"]

/-- Python ", ".join(categories). -/
def joinComma (cats : List Str) : Str := List.intercalate (lit ", ") cats

/-- The user prompt LLMClient.categorize builds (body truncated to 500 characters). -/
def categorizePrompt (categories : List Str) (email_subject email_body : Str) : Str :=
  lit "Categorize this email into one of these categories: " ++ joinComma categories ++
  lit "\n\nSubject: " ++ email_subject ++ lit "\n\n" ++ email_body.take 500 ++
  lit "\n\nCategory:"

/-- The system prompt LLMClient.categorize passes to chat. -/
def categorizeSystemPrompt : Str :=
  lit "You are a helpful assistant that categorizes emails.\nOnly respond with the category name, nothing else."

/-- The response post-processing of LLMClient.categorize:
response.strip().split over newlines, first element; then the first category
whose lowered name occurs in the lowered line; "Other" when none does. -/
def categorizeResponse (response : Str) (categories : List Str) : Str :=
  let line := firstLine (pyStrip response)
  match categories.find? (fun cat => pyIn (pyLower cat) (pyLower line)) with
  | some cat => cat
  | none => lit "Other"

/-- LLMClient.categorize: build the prompt, call chat, post-process.
A `none` categories argument selects the default list, as in the source. -/
def categorize (transport : List ChatMsg → Except Str Str)
    (email_subject email_body : Str) (categories : Option (List Str)) : Str :=
  let cats := categories.getD defaultCategories
  categorizeResponse
    (chat transport (categorizePrompt cats email_subject email_body)
      (some categorizeSystemPrompt))
    cats

/-- Claim C1 describes the matching as applied to the first line of the raw
response, with no stripping step. This definition follows the claim wording, to
be compared with categorizeResponse, which is translated from the source. -/
def categorizeClaimed (response : Str) (categories : List Str) : Str :=
  let line := firstLine response
  match categories.find? (fun cat => pyIn (pyLower cat) (pyLower line)) with
  | some cat => cat
  | none => lit "Other"

/-- The prompt of LLMClient.check_connection. -/
def okPrompt : Str :=
  lit "Say " ++ [apos] ++ lit "OK" ++ [apos] ++ lit " if you" ++ [apos] ++ lit "re working."

/-- LLMClient.check_connection: call chat with okPrompt and no system prompt,
then test whether "OK" occurs in the upper-cased response or the response is
non-empty. chat is total in the model (the source catches every transport
exception), so the outer except-branch of the source is unreachable here. -/
def check_connection (transport : List ChatMsg → Except Str Str) : Bool :=
  let response := chat transport okPrompt none
  pyIn (lit "OK") (pyUpper response) || decide (0 < response.length)

/-! ### agent.py -/

/-- The Email dataclass of email_client.py. -/
structure Email where
  id : Str
  subject : Str
  sender : Str
  date : Str
  body : Str
  folder : Str
  flags : List Str

/-- The prompt of EmailAgent._determine_priority (body truncated to 500 characters). -/
def priorityPrompt (e : Email) : Str :=
  lit "Rate the priority of this email as HIGH, MEDIUM, or LOW.\nConsider urgency, sender importance, and deadlines.\nOnly respond with one word: HIGH, MEDIUM, or LOW.\n\nSubject: " ++
  e.subject ++ lit "\nFrom: " ++ e.sender ++ lit "\n\n" ++ e.body.take 500

/-- The response post-processing of EmailAgent._determine_priority:
response.strip().upper(), then HIGH if it contains "HIGH", else LOW if it
contains "LOW", else MEDIUM. -/
def determinePriorityResponse (response : Str) : Str :=
  let r := pyUpper (pyStrip response)
  if pyIn (lit "HIGH") r then lit "HIGH"
  else if pyIn (lit "LOW") r then lit "LOW"
  else lit "MEDIUM"

/-- EmailAgent._determine_priority: chat with the priority prompt (no system
prompt), then post-process. -/
def determine_priority (transport : List ChatMsg → Except Str Str) (e : Email) : Str :=
  determinePriorityResponse (chat transport (priorityPrompt e) none)

/-- The action dictionary built per email by EmailAgent.organize_inbox. -/
structure RoutingAction where
  email_id : Str
  subject : Str
  category : Str
  target_folder : Option Str
  moved : Bool

/-- The folder-matching loop of EmailAgent.organize_inbox: the first folder
whose lowered name contains the lowered category, if any. -/
def routeTarget (folders : List Str) (category : Str) : Option Str :=
  folders.find? (fun folder => pyIn (pyLower category) (pyLower folder))

/-- One iteration of the EmailAgent.organize_inbox loop. The moveFn parameter
models client.move_email; the second component of the result is the list of
move invocations performed (id, destination), recording every call to the move
capability. The source calls move_email only when a target folder was found and
dry_run is false. -/
def organizeStep (transport : List ChatMsg → Except Str Str)
    (moveFn : Str → Str → Bool) (folders : List Str) (dry_run : Bool)
    (e : Email) : RoutingAction × List (Str × Str) :=
  let cat := categorize transport e.subject e.body none
  let target := routeTarget folders cat
  match target, dry_run with
  | some f, false =>
    (⟨e.id, e.subject, cat, some f, moveFn e.id f⟩, [(e.id, f)])
  | _, _ =>
    (⟨e.id, e.subject, cat, target, false⟩, [])

/-- EmailAgent.organize_inbox over an already-fetched email list and folder
list: the per-email loop, accumulating the action list and the trace of move
invocations. -/
def organize_inbox (transport : List ChatMsg → Except Str Str)
    (moveFn : Str → Str → Bool) (emails : List Email) (folders : List Str)
    (dry_run : Bool) : List RoutingAction × List (Str × Str) :=
  match emails with
  | [] => ([], [])
  | e :: rest =>
    let step := organizeStep transport moveFn folders dry_run e
    let tail := organize_inbox transport moveFn rest folders dry_run
    (step.1 :: tail.1, step.2 ++ tail.2)

/-- The EmailSummary dataclass of agent.py. -/
structure EmailSummary where
  email : Email
  summary : Str
  category : Str
  action_items : Str
  priority : Str

/-- EmailAgent._format_summary. -/
def formatSummary (s : EmailSummary) : Str :=
  lit "\n**" ++ s.email.subject ++ lit "**\nFrom: " ++ s.email.sender ++
  lit "\nCategory: " ++ s.category ++ lit "\n\n" ++ s.summary ++ lit "\n\n---\n"

/-- The header part of the daily digest. -/
def digestHeader (summaries : List EmailSummary) : Str :=
  lit "# Daily Email Digest\n\nYou have " ++ lit (toString summaries.length) ++
  lit " unread email(s).\n"

/-- The consolidated action-item entry for one result. -/
def actionEntry (s : EmailSummary) : Str :=
  lit "From " ++ [apos] ++ s.email.subject ++ [apos] ++ lit ":\n" ++ s.action_items

/-- The predicate of the action-item collection loop: the lowered action-items
text does not contain the sentinel "no action". -/
def hasActionItems (s : EmailSummary) : Bool :=
  !(pyIn (lit "no action") (pyLower s.action_items))

/-- The digest_parts list built by EmailAgent.get_daily_digest on a non-empty
input, translated loop by loop: the group loops append one formatted block per
result, and the action loop appends one entry per result passing the sentinel
test. Appends are modelled exactly as the source performs them, as left folds
that push to the end of the accumulator. -/
def digestParts (summaries : List EmailSummary) : List Str :=
  let parts0 := [digestHeader summaries]
  let high := summaries.filter (fun s => s.priority == lit "HIGH")
  let medium := summaries.filter (fun s => s.priority == lit "MEDIUM")
  let low := summaries.filter (fun s => s.priority == lit "LOW")
  let parts1 :=
    if high.isEmpty then parts0
    else high.foldl (fun acc s => acc ++ [formatSummary s]) (parts0 ++ [lit "\n## High Priority\n"])
  let parts2 :=
    if medium.isEmpty then parts1
    else medium.foldl (fun acc s => acc ++ [formatSummary s]) (parts1 ++ [lit "\n## Medium Priority\n"])
  let parts3 :=
    if low.isEmpty then parts2
    else low.foldl (fun acc s => acc ++ [formatSummary s]) (parts2 ++ [lit "\n## Low Priority\n"])
  let all_actions :=
    summaries.foldl (fun acc s => if hasActionItems s then acc ++ [actionEntry s] else acc) []
  if all_actions.isEmpty then parts3
  else parts3 ++ [lit "\n## All Action Items\n"] ++ all_actions

/-- EmailAgent.get_daily_digest over an already-computed summary list: the
fixed message when there are no summaries, otherwise the newline join of the
digest parts. -/
def get_daily_digest (summaries : List EmailSummary) : Str :=
  if summaries.isEmpty then lit "No unread emails to summarize."
  else List.intercalate (lit "\n") (digestParts summaries)

/-! ### email_client.py -/

/-- One payload part as seen by EmailClient._get_email_body: its declared
content type, its declared charset (None when undeclared), and its raw decoded
transfer payload as bytes. -/
structure MsgPart where
  content_type : Str
  charset : Option Str
  payload : List Nat

/-- A transport message: either multipart (the parts in msg.walk() order) or a
single part. For the single case, rawRender models str(msg.get_payload()), the
fallback rendering the source uses when decoding raises. -/
inductive MailMsg where
  | multipart (parts : List MsgPart) : MailMsg
  | single (part : MsgPart) (rawRender : Str) : MailMsg

/-- The multipart loop of EmailClient._get_email_body. The decodeRep oracle
models payload.decode(charset, errors="replace") together with
get_payload(decode=True): `some s` is a successful decode and `none` is a
raised exception (for example a LookupError on an unrecognized charset), which
the source catches and answers by continuing with the next part. The loop
skips parts whose content type is not "text/plain" and stops at the first
plain part that decodes; when no part qualifies, body keeps its initial empty
value. -/
def firstPlainBody (decodeRep : Str → List Nat → Option Str) :
    List MsgPart → Str
  | [] => []
  | p :: rest =>
    if p.content_type == lit "text/plain" then
      match decodeRep (orDefault p.charset (lit "utf-8")) p.payload with
      | some s => s
      | none => firstPlainBody decodeRep rest
    else firstPlainBody decodeRep rest

/-- EmailClient._get_email_body: the multipart loop or the single-part decode
with its raw-rendering fallback, followed by body.strip(). -/
def get_email_body (decodeRep : Str → List Nat → Option Str) : MailMsg → Str
  | MailMsg.multipart parts => pyStrip (firstPlainBody decodeRep parts)
  | MailMsg.single p raw =>
    pyStrip
      (match decodeRep (orDefault p.charset (lit "utf-8")) p.payload with
       | some s => s
       | none => raw)

/-- Claim C7 describes the multipart body as the first plain-text part decoded
with its declared charset, falling back to UTF-8 with replacement when that
decode fails, and empty when no plain-text part exists. This definition follows
the claim wording, to be compared with get_email_body, which is translated from
the source. -/
def emailBodyClaimed (decodeRep : Str → List Nat → Option Str)
    (parts : List MsgPart) : Str :=
  match parts.find? (fun p => p.content_type == lit "text/plain") with
  | none => []
  | some p =>
    match decodeRep (orDefault p.charset (lit "utf-8")) p.payload with
    | some s => s
    | none => (decodeRep (lit "utf-8") p.payload).getD []

/-- One segment of the email.header.decode_header output: either an already
decoded text segment or a byte segment tagged with an optional charset. -/
inductive HeaderSeg where
  | text (s : Str) : HeaderSeg
  | bytes (b : List Nat) (enc : Option Str) : HeaderSeg

/-- The per-segment step of EmailClient._decode_header_value: a text segment is
appended as is; a byte segment is decoded with its declared charset, the
declaration defaulting to "utf-8" under Python `or` truthiness. The decodeRep
oracle is as in firstPlainBody; `none` is a raised exception, which this source
function does not catch. -/
def decodeSeg (decodeRep : Str → List Nat → Option Str) : HeaderSeg → Option Str
  | HeaderSeg.text s => some s
  | HeaderSeg.bytes b enc => decodeRep (orDefault enc (lit "utf-8")) b

/-- The result-collection loop of EmailClient._decode_header_value: decode each
segment in order, collecting the decoded strings; a raising segment aborts the
loop (none). -/
def decodeSegs (decodeRep : Str → List Nat → Option Str) :
    List HeaderSeg → Option (List Str)
  | [] => some []
  | seg :: rest =>
    match decodeSeg decodeRep seg, decodeSegs decodeRep rest with
    | some s, some t => some (s :: t)
    | _, _ => none

/-- EmailClient._decode_header_value. The decodeHeader oracle models the stdlib
email.header.decode_header. A None header value yields the empty string; the
decoded segments are joined with a single space. When decoding a segment raises
(decodeSeg gives none), the exception propagates out of the function, modelled
as Except.error. -/
def decode_header_value (decodeHeader : Str → List HeaderSeg)
    (decodeRep : Str → List Nat → Option Str) (value : Option Str) :
    Except Unit Str :=
  match value with
  | none => Except.ok []
  | some v =>
    match decodeSegs decodeRep (decodeHeader v) with
    | some parts => Except.ok (List.intercalate (lit " ") parts)
    | none => Except.error ()

/-! ### Concrete fixtures used by witnesses and counterexamples -/

/-- A concrete byte decoder: UTF-8 requests decode each byte as the character
with that code point, any other charset raises. This mirrors the Python
behaviour that bytes.decode with errors="replace" is total for a known charset
but raises LookupError for an unrecognized charset name. -/
def cexDec : Str → List Nat → Option Str :=
  fun cs b => if cs == lit "utf-8" then some (b.map Char.ofNat) else none

/-- A concrete header splitter producing one byte segment tagged with an
unrecognized charset. -/
def cexDH : Str → List HeaderSeg :=
  fun _ => [HeaderSeg.bytes [104] (some (lit "bogus"))]

/-- A concrete header splitter producing a text segment and a UTF-8 byte
segment. -/
def wDH : Str → List HeaderSeg :=
  fun _ => [HeaderSeg.text (lit "Hello"), HeaderSeg.bytes [104, 105] none]

/-- Two plain-text parts: the first declares an unrecognized charset (its
decode raises), the second decodes to "bye". -/
def cexParts : List MsgPart :=
  [⟨lit "text/plain", some (lit "x-bogus"), [104, 105]⟩,
   ⟨lit "text/plain", some (lit "utf-8"), [98, 121, 101]⟩]

/-- A part that is not plain text. -/
def cexNonPlain : MsgPart := ⟨lit "text/html", some (lit "utf-8"), [104]⟩

/-- The folder list of the worked example in the spec. -/
def exFolders : List Str := [lit "INBOX", lit "Work/Important", lit "Archive"]

/-- A concrete email record. -/
def wEmail : Email := ⟨lit "1", lit "Invoice due Friday", lit "a@b.c", [], lit "Please pay", lit "INBOX", []⟩

/-- A concrete classification result for the digest witness. -/
def wSummary : EmailSummary := ⟨wEmail, lit "sum", lit "Work", lit "Pay the invoice", lit "HIGH"⟩

/-! ### Helper lemmas: whitespace, stripping and substring containment -/

theorem pyIn_true_iff (needle hay : Str) : pyIn needle hay = true ↔ needle <:+: hay := by
  simp [pyIn]

theorem toUpper_ws (c : Char) (h : isWs c = true) : Char.toUpper c = c := by
  unfold isWs at h
  simp only [Bool.or_eq_true, beq_iff_eq] at h
  rcases h with ((((h | h) | h) | h) | h) | h <;> subst h <;> decide

theorem pyUpper_ws (w : Str) (h : ∀ c ∈ w, isWs c = true) : pyUpper w = w := by
  induction w with
  | nil => rfl
  | cons c t ih =>
    have hc := toUpper_ws c (h c (List.mem_cons_self c t))
    have ht := ih (fun d hd => h d (List.mem_cons_of_mem c hd))
    simp [pyUpper] at ht ⊢
    exact ⟨hc, ht⟩

theorem pyUpper_append (a b : Str) : pyUpper (a ++ b) = pyUpper a ++ pyUpper b := by
  simp [pyUpper]

theorem ws_pad_left (p m w : Str) (hw : ∀ c ∈ w, isWs c = true) (hp : p ≠ [])
    (hpc : ∀ c ∈ p, isWs c = false) : (p <:+: w ++ m) ↔ (p <:+: m) := by
  induction w with
  | nil => simp
  | cons c w ih =>
    have hc : isWs c = true := hw c (List.mem_cons_self c w)
    have hw' : ∀ d ∈ w, isWs d = true := fun d hd => hw d (List.mem_cons_of_mem c hd)
    constructor
    · intro h
      rcases List.infix_cons_iff.mp h with hpre | htail
      · rcases p with _ | ⟨a, p'⟩
        · exact absurd rfl hp
        · rcases hpre with ⟨t, ht⟩
          have ha : a = c := by
            have h2 := congrArg List.head? ht
            simpa using h2
          have hac := hpc a (List.mem_cons_self a p')
          rw [ha, hc] at hac
          cases hac
      · exact (ih hw').mp htail
    · intro h
      rcases (ih hw').mpr h with ⟨s₁, t₁, hh⟩
      exact ⟨c :: s₁, t₁, by simpa using congrArg (List.cons c) hh⟩

theorem ws_pad_right (p m w : Str) (hw : ∀ c ∈ w, isWs c = true) (hp : p ≠ [])
    (hpc : ∀ c ∈ p, isWs c = false) : (p <:+: m ++ w) ↔ (p <:+: m) := by
  have hwr : ∀ c ∈ w.reverse, isWs c = true := fun c hc => hw c (List.mem_reverse.mp hc)
  have hpr : p.reverse ≠ [] := by simpa using hp
  have hpcr : ∀ c ∈ p.reverse, isWs c = false := fun c hc => hpc c (List.mem_reverse.mp hc)
  have key := ws_pad_left p.reverse m.reverse w.reverse hwr hpr hpcr
  constructor
  · intro h
    have h2 := List.reverse_infix.mpr h
    rw [List.reverse_append] at h2
    exact List.reverse_infix.mp (key.mp h2)
  · intro h
    have h2 := List.reverse_infix.mpr h
    have h3 := key.mpr h2
    rw [← List.reverse_append] at h3
    exact List.reverse_infix.mp h3

theorem pyIn_ws_pad (p w₁ m w₂ : Str) (hp : p ≠ []) (hpc : ∀ c ∈ p, isWs c = false)
    (h1 : ∀ c ∈ w₁, isWs c = true) (h2 : ∀ c ∈ w₂, isWs c = true) :
    pyIn p (w₁ ++ m ++ w₂) = pyIn p m := by
  have key : (p <:+: w₁ ++ (m ++ w₂)) ↔ (p <:+: m) :=
    (ws_pad_left p (m ++ w₂) w₁ h1 hp hpc).trans (ws_pad_right p m w₂ h2 hp hpc)
  simp [pyIn, List.append_assoc, key]

theorem pyStrip_decomp (s : Str) :
    ∃ w₁ w₂ : Str, s = w₁ ++ pyStrip s ++ w₂
      ∧ (∀ c ∈ w₁, isWs c = true) ∧ (∀ c ∈ w₂, isWs c = true) := by
  refine ⟨s.takeWhile isWs, ((s.dropWhile isWs).reverse.takeWhile isWs).reverse, ?_, ?_, ?_⟩
  · have h4 : s.dropWhile isWs
        = pyStrip s ++ ((s.dropWhile isWs).reverse.takeWhile isWs).reverse := by
      unfold pyStrip
      have h2 := congrArg List.reverse
        (List.takeWhile_append_dropWhile isWs (s.dropWhile isWs).reverse)
      rw [List.reverse_append, List.reverse_reverse] at h2
      exact h2.symm
    conv_lhs => rw [← List.takeWhile_append_dropWhile isWs s, h4]
    rw [List.append_assoc]
  · exact fun c hc => List.mem_takeWhile_imp hc
  · intro c hc
    rw [List.mem_reverse] at hc
    exact List.mem_takeWhile_imp hc

theorem pyIn_upper_strip (p s : Str) (hp : p ≠ []) (hpc : ∀ c ∈ p, isWs c = false) :
    pyIn p (pyUpper (pyStrip s)) = pyIn p (pyUpper s) := by
  rcases pyStrip_decomp s with ⟨w₁, w₂, hs, h1, h2⟩
  conv_rhs => rw [hs]
  rw [pyUpper_append, pyUpper_append, pyUpper_ws w₁ h1, pyUpper_ws w₂ h2]
  exact (pyIn_ws_pad p w₁ (pyUpper (pyStrip s)) w₂ hp hpc h1 h2).symm

theorem head_dropWhile_not (p : Char → Bool) (l : Str) :
    ∀ a, (l.dropWhile p).head? = some a → p a = false := by
  induction l with
  | nil => intro a h; simp [List.dropWhile] at h
  | cons c t ih =>
    intro a h
    cases hp : p c with
    | true =>
      rw [List.dropWhile_cons_of_pos hp] at h
      exact ih a h
    | false =>
      rw [List.dropWhile_cons_of_neg (by simp [hp])] at h
      simp at h
      rw [← h]
      exact hp

theorem dropWhile_head_neg (p : Char → Bool) (l : Str)
    (h : ∀ a, l.head? = some a → p a = false) : l.dropWhile p = l := by
  cases l with
  | nil => rfl
  | cons c t =>
    have hc := h c rfl
    rw [List.dropWhile_cons_of_neg (by simp [hc])]

theorem getLast_of_sfx (l₁ l₂ : Str) (h : l₁ <:+ l₂) (hne : l₁ ≠ []) :
    l₂.getLast? = l₁.getLast? := by
  rcases h with ⟨t, rfl⟩
  rw [List.getLast?_append]
  cases hl : l₁.getLast? with
  | none =>
    rw [List.getLast?_eq_none_iff] at hl
    exact absurd hl hne
  | some a => simp

theorem pyStrip_getLast_not_ws (s : Str) (a : Char)
    (h : (pyStrip s).getLast? = some a) : isWs a = false := by
  unfold pyStrip at h
  rw [List.getLast?_reverse] at h
  exact head_dropWhile_not isWs _ a h

theorem pyStrip_head_not_ws (s : Str) (a : Char)
    (h : (pyStrip s).head? = some a) : isWs a = false := by
  unfold pyStrip at h
  rw [List.head?_reverse] at h
  have hene : (s.dropWhile isWs).reverse.dropWhile isWs ≠ [] := by
    intro hnil
    rw [hnil] at h
    simp at h
  have hsfx : (s.dropWhile isWs).reverse.dropWhile isWs <:+ (s.dropWhile isWs).reverse :=
    ⟨(s.dropWhile isWs).reverse.takeWhile isWs,
      List.takeWhile_append_dropWhile isWs (s.dropWhile isWs).reverse⟩
  have h5 := getLast_of_sfx _ _ hsfx hene
  rw [List.getLast?_reverse] at h5
  exact head_dropWhile_not isWs s a (h5.trans h)

theorem pyStrip_eq_nil_of_ws (s : Str) (h : ∀ c ∈ s, isWs c = true) : pyStrip s = [] := by
  unfold pyStrip
  have h1 : s.dropWhile isWs = [] := List.dropWhile_eq_nil_iff.mpr (by simpa using h)
  rw [h1]
  rfl

theorem pyStrip_idem (s : Str) : pyStrip (pyStrip s) = pyStrip s := by
  cases hh : pyStrip s with
  | nil => rfl
  | cons c t =>
    have hhead : isWs c = false := pyStrip_head_not_ws s c (by rw [hh]; rfl)
    have hlast : ∀ a, (c :: t).getLast? = some a → isWs a = false := by
      intro a ha
      exact pyStrip_getLast_not_ws s a (by rw [hh]; exact ha)
    unfold pyStrip
    have h1 : (c :: t).dropWhile isWs = c :: t := by
      rw [List.dropWhile_cons_of_neg (by simp [hhead])]
    rw [h1]
    have h2 : (c :: t).reverse.dropWhile isWs = (c :: t).reverse := by
      apply dropWhile_head_neg
      intro a ha
      rw [List.head?_reverse] at ha
      exact hlast a ha
    rw [h2, List.reverse_reverse]

/-! ### Helper lemmas: first-match search and loop folds -/

theorem find_append_first {α : Type} (p : α → Bool) (pre : List α) (a : α) (post : List α)
    (hpre : ∀ x ∈ pre, p x = false) (ha : p a = true) :
    List.find? p (pre ++ a :: post) = some a := by
  induction pre with
  | nil => simpa using List.find?_cons_of_pos post ha
  | cons b t ih =>
    have hb := hpre b (List.mem_cons_self b t)
    rw [List.cons_append, List.find?_cons_of_neg _ (by simp [hb])]
    exact ih (fun x hx => hpre x (List.mem_cons_of_mem b hx))

theorem find_eq_some_split {α : Type} (p : α → Bool) (l : List α) (a : α)
    (h : List.find? p l = some a) :
    p a = true ∧ ∃ pre post, l = pre ++ a :: post ∧ ∀ x ∈ pre, p x = false := by
  induction l with
  | nil => simp [List.find?] at h
  | cons b t ih =>
    cases hb : p b with
    | true =>
      rw [List.find?_cons_of_pos _ hb] at h
      have hba : b = a := by injection h
      subst hba
      exact ⟨hb, [], t, rfl, by intro x hx; simp at hx⟩
    | false =>
      rw [List.find?_cons_of_neg _ (by simp [hb])] at h
      rcases ih h with ⟨hpa, pre, post, hsplit, hpre⟩
      subst hsplit
      refine ⟨hpa, b :: pre, post, rfl, ?_⟩
      intro x hx
      rcases List.mem_cons.mp hx with rfl | hx'
      · exact hb
      · exact hpre x hx'

theorem foldl_push {α β : Type} (f : α → β) (l : List α) (acc : List β) :
    l.foldl (fun a s => a ++ [f s]) acc = acc ++ l.map f := by
  induction l generalizing acc with
  | nil => simp
  | cons x t ih => simp [ih]

theorem foldl_push_if {α β : Type} (p : α → Bool) (f : α → β) (l : List α) (acc : List β) :
    l.foldl (fun a s => if p s then a ++ [f s] else a) acc = acc ++ (l.filter p).map f := by
  induction l generalizing acc with
  | nil => simp
  | cons x t ih =>
    cases hp : p x <;> simp [List.filter_cons, hp, ih]

/-- Reformulation of categorizeResponse without the let binder. -/
theorem categorizeResponse_eq (response : Str) (categories : List Str) :
    categorizeResponse response categories =
      match categories.find?
          (fun cat => pyIn (pyLower cat) (pyLower (firstLine (pyStrip response)))) with
      | some cat => cat
      | none => lit "Other" := rfl

/-- C2: for every raw completion response string, including the empty string,
the priority policy agrees with the claim: upper-case the response; HIGH when
it contains "HIGH", else LOW when it contains "LOW", else MEDIUM. In
particular a response containing both tokens resolves to HIGH and one with
neither resolves to MEDIUM. The source additionally strips the response before
upper-casing, which this theorem shows to be containment-neutral. -/
theorem determine_priority_policy (response : Str) :
    determinePriorityResponse response =
      (if pyIn (lit "HIGH") (pyUpper response) then lit "HIGH"
       else if pyIn (lit "LOW") (pyUpper response) then lit "LOW"
       else lit "MEDIUM") := by
  have h1 := pyIn_upper_strip (lit "HIGH") response (by decide) (by decide)
  have h2 := pyIn_upper_strip (lit "LOW") response (by decide) (by decide)
  simp only [determinePriorityResponse, h1, h2]

/-- C1 counterexample: on the raw completion text that starts with a newline
before the category name, the source takes the first line of the STRIPPED
response and answers "Work", while the procedure described by the claim (first
line of the raw response) answers "Other": the claim's description of the
algorithm does not match the source. -/
theorem categorize_first_line_cex :
    categorizeResponse (lit "\nWork") defaultCategories = lit "Work"
    ∧ categorizeClaimed (lit "\nWork") defaultCategories = lit "Other"
    ∧ categorizeResponse (lit "\nWork") defaultCategories ≠
        categorizeClaimed (lit "\nWork") defaultCategories := by
  refine ⟨?_, ?_, ?_⟩ <;> decide

/-- C1 (amended): categorizeResponse always returns a configured category or
the fallback "Other", never other text; it returns the first category, in list
order, whose lowered name occurs in the lowered first line of the
whitespace-stripped response, and "Other" exactly when no category matches
that line. -/
theorem categorize_closed_set (response : Str) (categories : List Str) :
    (categorizeResponse response categories ∈ categories ∨
      categorizeResponse response categories = lit "Other")
    ∧ (∀ pre cat post,
        categories = pre ++ cat :: post →
        pyIn (pyLower cat) (pyLower (firstLine (pyStrip response))) = true →
        (∀ c ∈ pre, pyIn (pyLower c) (pyLower (firstLine (pyStrip response))) = false) →
        categorizeResponse response categories = cat)
    ∧ ((∀ c ∈ categories, pyIn (pyLower c) (pyLower (firstLine (pyStrip response))) = false) →
        categorizeResponse response categories = lit "Other") := by
  refine ⟨?_, ?_, ?_⟩
  · rw [categorizeResponse_eq]
    cases hf : categories.find?
        (fun cat => pyIn (pyLower cat) (pyLower (firstLine (pyStrip response)))) with
    | none => right; rfl
    | some cat => left; exact List.mem_of_find?_eq_some hf
  · intro pre cat post hsplit hcat hpre
    rw [categorizeResponse_eq, hsplit]
    rw [find_append_first _ pre cat post hpre hcat]
  · intro hnone
    rw [categorizeResponse_eq]
    rw [List.find?_eq_none.mpr (by intro x hx; simp [hnone x hx])]

/-- Witness for categorize_closed_set: on the response "I think Work fits
best" with the default categories, the first (and only) match in list order is
"Work"; membership is also instantiated on a non-matching response. -/
theorem categorize_closed_set_witness :
    categorizeResponse (lit "I think Work fits best") defaultCategories = lit "Work"
    ∧ (categorizeResponse (lit "zzz") defaultCategories ∈ defaultCategories ∨
        categorizeResponse (lit "zzz") defaultCategories = lit "Other") := by
  constructor
  · exact (categorize_closed_set (lit "I think Work fits best") defaultCategories).2.1
      [lit "Important"] (lit "Work")
      [lit "Personal", lit "Newsletter", lit "Spam", lit "Other"]
      rfl (by decide) (by decide)
  · exact (categorize_closed_set (lit "zzz") defaultCategories).1

/-- The per-email step of organize_inbox sets target_folder to the routeTarget
result in every branch. -/
theorem organizeStep_target (transport : List ChatMsg → Except Str Str)
    (moveFn : Str → Str → Bool) (folders : List Str) (dry_run : Bool) (e : Email) :
    (organizeStep transport moveFn folders dry_run e).1.target_folder
      = routeTarget folders (categorize transport e.subject e.body none) := by
  unfold organizeStep
  cases hr : routeTarget folders (categorize transport e.subject e.body none) with
  | none => cases dry_run <;> simp [hr]
  | some f => cases dry_run <;> simp [hr]

/-- The per-email step of organize_inbox performs no move invocation when
dry_run is true. -/
theorem organizeStep_dry (transport : List ChatMsg → Except Str Str)
    (moveFn : Str → Str → Bool) (folders : List Str) (e : Email) :
    (organizeStep transport moveFn folders true e).2 = [] := by
  unfold organizeStep
  cases hr : routeTarget folders (categorize transport e.subject e.body none) <;> simp [hr]

/-- C4: for every transport, move capability, email list and folder list, when
dry_run is true the routing step never invokes the move capability: the trace
of move invocations recorded by organize_inbox is empty. -/
theorem organize_dry_run_no_moves (transport : List ChatMsg → Except Str Str)
    (moveFn : Str → Str → Bool) (emails : List Email) (folders : List Str) :
    (organize_inbox transport moveFn emails folders true).2 = [] := by
  induction emails with
  | nil => rfl
  | cons e rest ih =>
    simp [organize_inbox, organizeStep_dry transport moveFn folders e, ih]

/-- C5: the routing step sets each action's target_folder to the routeTarget of
the record's category, and routeTarget returns the first folder, in the order
given, whose lowered name contains the lowered category, or none when no
folder name contains it. -/
theorem route_first_matching_folder (transport : List ChatMsg → Except Str Str)
    (moveFn : Str → Str → Bool) (emails : List Email) (folders : List Str)
    (dry_run : Bool) :
    ((organize_inbox transport moveFn emails folders dry_run).1.map
        (fun a => a.target_folder)
      = emails.map
        (fun e => routeTarget folders (categorize transport e.subject e.body none)))
    ∧ (∀ category f, routeTarget folders category = some f →
        pyIn (pyLower category) (pyLower f) = true
        ∧ ∃ pre post, folders = pre ++ f :: post
            ∧ ∀ g ∈ pre, pyIn (pyLower category) (pyLower g) = false)
    ∧ (∀ category, routeTarget folders category = none →
        ∀ f ∈ folders, pyIn (pyLower category) (pyLower f) = false) := by
  refine ⟨?_, ?_, ?_⟩
  · induction emails with
    | nil => rfl
    | cons e rest ih =>
      simp [organize_inbox, organizeStep_target transport moveFn folders dry_run e, ih]
  · intro category f h
    rcases find_eq_some_split _ folders f h with ⟨hpf, pre, post, hsplit, hpre⟩
    exact ⟨hpf, pre, post, hsplit, hpre⟩
  · intro category h f hf
    have hx := List.find?_eq_none.mp h f hf
    simpa using hx

/-- Witness for route_first_matching_folder: on the spec's worked example,
category "Important" routes to "Work/Important", the first case-insensitive
substring match, with the earlier folder "INBOX" not matching. -/
theorem route_first_matching_folder_witness :
    routeTarget exFolders (lit "Important") = some (lit "Work/Important")
    ∧ pyIn (pyLower (lit "Important")) (pyLower (lit "Work/Important")) = true
    ∧ ∃ pre post, exFolders = pre ++ (lit "Work/Important") :: post
        ∧ ∀ g ∈ pre, pyIn (pyLower (lit "Important")) (pyLower g) = false := by
  have h := (route_first_matching_folder (fun _ => Except.error [])
      (fun _ _ => true) [] exFolders true).2.1 (lit "Important")
      (lit "Work/Important") (by decide)
  exact ⟨by decide, h.1, h.2⟩

/-- C3: the digest of an empty result set is the fixed "nothing to summarize"
message; for every non-empty result set the digest is the newline join of: the
header, then a HIGH section, a MEDIUM section and a LOW section in that order,
each present only when its group is non-empty and listing the group's results
in input order (stable filtering), and finally an action-items section that
contains exactly one entry for each result whose action-items text does not
contain the sentinel "no action" case-insensitively, in original record
order. -/
theorem digest_structure :
    get_daily_digest [] = lit "No unread emails to summarize."
    ∧ ∀ summaries : List EmailSummary, summaries ≠ [] →
        get_daily_digest summaries = List.intercalate (lit "\n") (digestParts summaries)
        ∧ digestParts summaries =
            [digestHeader summaries]
            ++ (if (summaries.filter (fun s => s.priority == lit "HIGH")).isEmpty then []
                else lit "\n## High Priority\n" ::
                  (summaries.filter (fun s => s.priority == lit "HIGH")).map formatSummary)
            ++ (if (summaries.filter (fun s => s.priority == lit "MEDIUM")).isEmpty then []
                else lit "\n## Medium Priority\n" ::
                  (summaries.filter (fun s => s.priority == lit "MEDIUM")).map formatSummary)
            ++ (if (summaries.filter (fun s => s.priority == lit "LOW")).isEmpty then []
                else lit "\n## Low Priority\n" ::
                  (summaries.filter (fun s => s.priority == lit "LOW")).map formatSummary)
            ++ (if (summaries.filter hasActionItems).isEmpty then []
                else lit "\n## All Action Items\n" ::
                  (summaries.filter hasActionItems).map actionEntry) := by
  constructor
  · rfl
  · intro summaries hne
    constructor
    · have h0 : summaries.isEmpty = false := by
        cases summaries with
        | nil => exact absurd rfl hne
        | cons a t => rfl
      simp [get_daily_digest, h0]
    · simp only [digestParts, foldl_push, foldl_push_if, List.nil_append]
      cases h1 : (summaries.filter (fun s => s.priority == lit "HIGH")).isEmpty <;>
        cases h2 : (summaries.filter (fun s => s.priority == lit "MEDIUM")).isEmpty <;>
          cases h3 : (summaries.filter (fun s => s.priority == lit "LOW")).isEmpty <;>
            cases h4 : (summaries.filter hasActionItems).isEmpty <;>
              simp [h1, h2, h3, h4, List.append_assoc] <;>
                simp_all

/-- Witness for digest_structure: the empty case, and the non-empty hypothesis
discharged on a concrete one-element result set. -/
theorem digest_structure_witness :
    get_daily_digest [] = lit "No unread emails to summarize."
    ∧ get_daily_digest [wSummary]
      = List.intercalate (lit "\n") (digestParts [wSummary]) := by
  constructor
  · exact digest_structure.1
  · exact (digest_structure.2 [wSummary] (List.cons_ne_nil wSummary [])).1

/-- C6 counterexample: a header consisting of one byte segment tagged with an
unrecognized charset makes _decode_header_value raise (Except.error models the
uncaught exception): in Python, bytes.decode with errors="replace" still
raises LookupError when the charset name itself is unknown, and this source
function has no try/except around the per-segment decode. So header decoding
is not total, contrary to the claim. -/
theorem header_decode_raises_cex :
    decode_header_value cexDH cexDec (some (lit "x")) = Except.error () := rfl

/-- C6 (amended): header decoding never raises provided every segment's
declared charset is accepted by the byte decoder; a null header yields the
empty string; each byte segment is decoded with its declared charset,
defaulting to UTF-8 when the declaration is absent or empty, with replacement
handled inside the decoder; the decoded segments are joined with a single
separating space; and the only failure mode is a segment whose decode raises,
in which case the exception propagates. -/
theorem header_decode_structure (decodeHeader : Str → List HeaderSeg)
    (decodeRep : Str → List Nat → Option Str) :
    decode_header_value decodeHeader decodeRep none = Except.ok []
    ∧ (∀ v parts, decodeSegs decodeRep (decodeHeader v) = some parts →
        decode_header_value decodeHeader decodeRep (some v)
          = Except.ok (List.intercalate (lit " ") parts))
    ∧ (∀ v, decodeSegs decodeRep (decodeHeader v) = none →
        decode_header_value decodeHeader decodeRep (some v) = Except.error ())
    ∧ (∀ s, decodeSeg decodeRep (HeaderSeg.text s) = some s)
    ∧ (∀ b, decodeSeg decodeRep (HeaderSeg.bytes b none) = decodeRep (lit "utf-8") b)
    ∧ (∀ b, decodeSeg decodeRep (HeaderSeg.bytes b (some [])) = decodeRep (lit "utf-8") b)
    ∧ (∀ b enc, enc ≠ [] →
        decodeSeg decodeRep (HeaderSeg.bytes b (some enc)) = decodeRep enc b) := by
  refine ⟨rfl, ?_, ?_, fun s => rfl, fun b => rfl, fun b => rfl, ?_⟩
  · intro v parts h
    simp [decode_header_value, h]
  · intro v h
    simp [decode_header_value, h]
  · intro b enc h
    have : enc.isEmpty = false := by
      cases enc with
      | nil => exact absurd rfl h
      | cons c t => rfl
    simp [decodeSeg, orDefault, this]

/-- Witness for header_decode_structure: a two-segment header (text plus
undeclared-charset bytes) decodes to the space-joined segments. -/
theorem header_decode_structure_witness :
    decode_header_value wDH cexDec (some (lit "x"))
      = Except.ok (List.intercalate (lit " ") [lit "Hello", lit "hi"])
    ∧ decodeSeg cexDec (HeaderSeg.bytes [104] (some (lit "bogus")))
      = cexDec (lit "bogus") [104] := by
  constructor
  · exact (header_decode_structure wDH cexDec).2.1 (lit "x") [lit "Hello", lit "hi"]
      (by decide)
  · exact (header_decode_structure wDH cexDec).2.2.2.2.2.2 [104] (lit "bogus")
      (by decide)

/-- The multipart loop returns the empty string when no part is plain text. -/
theorem firstPlainBody_none (decodeRep : Str → List Nat → Option Str)
    (parts : List MsgPart) (h : ∀ p ∈ parts, ¬(p.content_type = lit "text/plain")) :
    firstPlainBody decodeRep parts = [] := by
  induction parts with
  | nil => rfl
  | cons p rest ih =>
    have hp := h p (List.mem_cons_self p rest)
    have hbeq : (p.content_type == lit "text/plain") = false := by
      simpa using hp
    simp only [firstPlainBody, hbeq, Bool.false_eq_true, if_false]
    exact ih (fun q hq => h q (List.mem_cons_of_mem p hq))

/-- The multipart loop returns the first plain part that decodes, skipping
earlier plain parts whose decode raises. -/
theorem firstPlainBody_found (decodeRep : Str → List Nat → Option Str)
    (pre : List MsgPart) (p : MsgPart) (post : List MsgPart) (s : Str)
    (hpre : ∀ q ∈ pre, q.content_type = lit "text/plain" →
      decodeRep (orDefault q.charset (lit "utf-8")) q.payload = none)
    (hplain : p.content_type = lit "text/plain")
    (hdec : decodeRep (orDefault p.charset (lit "utf-8")) p.payload = some s) :
    firstPlainBody decodeRep (pre ++ p :: post) = s := by
  induction pre with
  | nil =>
    have hbeq : (p.content_type == lit "text/plain") = true := by simpa using hplain
    simp only [List.nil_append, firstPlainBody, hbeq, if_true, hdec]
  | cons q rest ih =>
    rw [List.cons_append]
    by_cases hq : q.content_type = lit "text/plain"
    · have hbeq : (q.content_type == lit "text/plain") = true := by simpa using hq
      have hqdec := hpre q (List.mem_cons_self q rest) hq
      simp only [firstPlainBody, hbeq, if_true, hqdec]
      exact ih (fun r hr => hpre r (List.mem_cons_of_mem q hr))
    · have hbeq : (q.content_type == lit "text/plain") = false := by simpa using hq
      simp only [firstPlainBody, hbeq, Bool.false_eq_true, if_false]
      exact ih (fun r hr => hpre r (List.mem_cons_of_mem q hr))

/-- C7 counterexample: with two plain-text parts where the first declares an
unrecognized charset, the source skips the raising first part and returns the
second part's text "bye", while the claim's described procedure (first
plain-text part, decode failure answered by a UTF-8 replacement decode of that
same part) returns "hi". The claim's fallback description does not match the
source, which falls through to the next plain-text part instead. -/
theorem body_fallback_cex :
    get_email_body cexDec (MailMsg.multipart cexParts) = lit "bye"
    ∧ emailBodyClaimed cexDec cexParts = lit "hi"
    ∧ get_email_body cexDec (MailMsg.multipart cexParts) ≠
        emailBodyClaimed cexDec cexParts := by
  refine ⟨?_, ?_, ?_⟩ <;> decide

/-- C7 (amended): for a multipart payload the body is the first plain-text
part that decodes successfully — decoded with its declared charset, defaulting
to UTF-8 when the declaration is absent, with byte replacement inside the
decoder — regardless of its position among the parts; a plain-text part whose
decode raises is skipped in favor of later plain-text parts; when no
plain-text part exists the body is the empty string. (The final strip is the
source's body.strip().) -/
theorem body_first_decodable_plain (decodeRep : Str → List Nat → Option Str) :
    (∀ parts : List MsgPart, (∀ p ∈ parts, ¬(p.content_type = lit "text/plain")) →
        get_email_body decodeRep (MailMsg.multipart parts) = [])
    ∧ (∀ pre p post s,
        (∀ q ∈ pre, q.content_type = lit "text/plain" →
          decodeRep (orDefault q.charset (lit "utf-8")) q.payload = none) →
        p.content_type = lit "text/plain" →
        decodeRep (orDefault p.charset (lit "utf-8")) p.payload = some s →
        get_email_body decodeRep (MailMsg.multipart (pre ++ p :: post)) = pyStrip s) := by
  constructor
  · intro parts h
    show pyStrip (firstPlainBody decodeRep parts) = []
    rw [firstPlainBody_none decodeRep parts h]
    rfl
  · intro pre p post s hpre hplain hdec
    show pyStrip (firstPlainBody decodeRep (pre ++ p :: post)) = pyStrip s
    rw [firstPlainBody_found decodeRep pre p post s hpre hplain hdec]

/-- Witness for body_first_decodable_plain: the decodable plain part is
selected past a raising plain part, and a payload with no plain part yields
the empty body. -/
theorem body_first_decodable_plain_witness :
    get_email_body cexDec
        (MailMsg.multipart ([⟨lit "text/plain", some (lit "x-bogus"), [104, 105]⟩]
          ++ ⟨lit "text/plain", some (lit "utf-8"), [98, 121, 101]⟩ :: []))
      = pyStrip (lit "bye")
    ∧ get_email_body cexDec (MailMsg.multipart [cexNonPlain]) = [] := by
  constructor
  · exact (body_first_decodable_plain cexDec).2
      [⟨lit "text/plain", some (lit "x-bogus"), [104, 105]⟩]
      ⟨lit "text/plain", some (lit "utf-8"), [98, 121, 101]⟩ [] (lit "bye")
      (by decide) (by decide) (by decide)
  · exact (body_first_decodable_plain cexDec).1 [cexNonPlain] (by decide)

/-- C8: the completion call fails closed: for every prompt and optional system
prompt, when the transport raises, chat returns the textual error description
(the fixed prefix followed by the exception text) instead of raising — chat is
a total function of the transport outcome — and when the transport succeeds,
chat returns the completion content. -/
theorem chat_fails_closed (transport : List ChatMsg → Except Str Str)
    (prompt : Str) (system_prompt : Option Str) :
    (∀ e, transport (chatMessages prompt system_prompt) = Except.error e →
        chat transport prompt system_prompt = errPrefix ++ e)
    ∧ (∀ c, transport (chatMessages prompt system_prompt) = Except.ok c →
        chat transport prompt system_prompt = c) := by
  constructor <;> intro x h <;> simp [chat, h]

/-- Witness for chat_fails_closed: a transport that always raises with message
"connection refused" makes chat return the error text. -/
theorem chat_fails_closed_witness :
    chat (fun _ => Except.error (lit "connection refused")) (lit "hello") none
      = errPrefix ++ lit "connection refused" := by
  exact (chat_fails_closed (fun _ => Except.error (lit "connection refused"))
    (lit "hello") none).1 (lit "connection refused") rfl

/-- C9: the health check reports true exactly when the chat response is
non-empty; in particular, for every transport that raises (so that chat
substitutes its textual error description, which is never empty), the health
check still reports true. -/
theorem check_connection_nonempty (transport : List ChatMsg → Except Str Str) :
    (check_connection transport = true ↔ chat transport okPrompt none ≠ [])
    ∧ (∀ e, transport (chatMessages okPrompt none) = Except.error e →
        check_connection transport = true) := by
  have hcc : check_connection transport
      = (pyIn (lit "OK") (pyUpper (chat transport okPrompt none))
          || decide (0 < (chat transport okPrompt none).length)) := rfl
  constructor
  · cases hr : chat transport okPrompt none with
    | nil =>
      constructor
      · intro h
        rw [hcc, hr] at h
        exact absurd h (by decide)
      · intro h
        exact absurd rfl h
    | cons c t =>
      constructor
      · intro _
        exact List.cons_ne_nil c t
      · intro _
        rw [hcc, hr]
        simp
  · intro e h
    have hchat : chat transport okPrompt none = errPrefix ++ e := by
      unfold chat
      rw [h]
    have hlen : 0 < (chat transport okPrompt none).length := by
      rw [hchat, List.length_append]
      have h30 : errPrefix.length = 30 := by decide
      omega
    rw [hcc]
    simp [hlen]

/-- Witness for check_connection_nonempty: a transport that always raises
still makes the health check report true. -/
theorem check_connection_nonempty_witness :
    check_connection (fun _ => Except.error (lit "boom")) = true := by
  exact (check_connection_nonempty (fun _ => Except.error (lit "boom"))).2
    (lit "boom") rfl

/-- C10: every body produced by get_email_body is whitespace-stripped: its
first and last characters, when present, are not whitespace, stripping it
again changes nothing, and a part that decodes to whitespace-only text yields
the empty body. -/
theorem body_stripped (decodeRep : Str → List Nat → Option Str) :
    (∀ m : MailMsg, ∀ c, (get_email_body decodeRep m).head? = some c → isWs c = false)
    ∧ (∀ m : MailMsg, ∀ c, (get_email_body decodeRep m).getLast? = some c → isWs c = false)
    ∧ (∀ m : MailMsg, pyStrip (get_email_body decodeRep m) = get_email_body decodeRep m)
    ∧ (∀ part raw s,
        decodeRep (orDefault part.charset (lit "utf-8")) part.payload = some s →
        (∀ c ∈ s, isWs c = true) →
        get_email_body decodeRep (MailMsg.single part raw) = []) := by
  have hform : ∀ m : MailMsg, ∃ x : Str, get_email_body decodeRep m = pyStrip x := by
    intro m
    cases m with
    | multipart parts => exact ⟨firstPlainBody decodeRep parts, rfl⟩
    | single p raw =>
      exact ⟨(match decodeRep (orDefault p.charset (lit "utf-8")) p.payload with
              | some s => s
              | none => raw), rfl⟩
  refine ⟨?_, ?_, ?_, ?_⟩
  · intro m c h
    rcases hform m with ⟨x, hx⟩
    rw [hx] at h
    exact pyStrip_head_not_ws x c h
  · intro m c h
    rcases hform m with ⟨x, hx⟩
    rw [hx] at h
    exact pyStrip_getLast_not_ws x c h
  · intro m
    rcases hform m with ⟨x, hx⟩
    rw [hx]
    exact pyStrip_idem x
  · intro part raw s hdec hws
    show pyStrip _ = []
    rw [hdec]
    exact pyStrip_eq_nil_of_ws s hws

/-- Witness for body_stripped: a single part decoding to two spaces yields the
empty body, and the head of a concrete non-empty body is not whitespace. -/
theorem body_stripped_witness :
    get_email_body cexDec
        (MailMsg.single ⟨lit "text/plain", some (lit "utf-8"), [32, 32]⟩ []) = []
    ∧ isWs 'b' = false := by
  constructor
  · exact (body_stripped cexDec).2.2.2 ⟨lit "text/plain", some (lit "utf-8"), [32, 32]⟩
      [] (lit "  ") (by decide) (by decide)
  · exact (body_stripped cexDec).1 (MailMsg.multipart cexParts) 'b' (by decide)
